import Mathlib

/-!
Verification of the OAuth/session backend (ElysiaJS + Drizzle).

This file gives a shallow embedding of the session-lifecycle core of the
repository: the data model (user / session / account rows), the session
validation query, bearer-token extraction, the sign-out deletion, the
expired-session sweep, the Apple token verification, the sign-in
user-resolution path, and the session-token generator.  Time is modelled
as a natural number of milliseconds; the persistent store is a record of
row lists; each Drizzle statement becomes an explicit pure operation on
the store.  JavaScript string operations used by the code (startsWith,
replace of a first occurrence, trim, truthiness of strings) are modelled
on the character-list representation of Lean strings.
-/

/-! ## JavaScript string primitives used by the code -/

/-- Model of the JavaScript expression h.startsWith(pre). -/
def jsStartsWith (s pre : String) : Bool :=
  pre.data.isPrefixOf s.data

/-- Remove the first occurrence of pat from the character list, as
JavaScript s.replace(pat, "") does for plain string patterns. -/
def removeFirstOcc (pat : List Char) : List Char → List Char
  | [] => []
  | c :: cs =>
    if pat.isPrefixOf (c :: cs) then (c :: cs).drop pat.length
    else c :: removeFirstOcc pat cs

/-- Model of the JavaScript expression s.replace(pat, "") for a plain
string pattern: only the first occurrence is removed. -/
def jsReplaceFirst (s pat : String) : String :=
  ⟨removeFirstOcc pat.data s.data⟩

/-- Model of JavaScript s.trim(): strip whitespace from both ends. -/
def jsTrim (s : String) : String :=
  ⟨((s.data.dropWhile Char.isWhitespace).reverse.dropWhile Char.isWhitespace).reverse⟩

/-- JavaScript a || b for an optional string a: an absent or empty
string is falsy and yields the fallback. -/
def jsOrElse (a : Option String) (fallback : Option String) : Option String :=
  match a with
  | some s => if s = "" then fallback else some s
  | none => fallback

/-- JavaScript a || null for an optional string a. -/
def jsOrNull (a : Option String) : Option String :=
  jsOrElse a none

/-! ## Data model (src/db/schema/auth.ts)

One record type per table, with the columns the core logic reads or
writes.  Nullable columns are Option; timestamp columns are Nat
(milliseconds since epoch). -/

/-- A row of the user table. -/
structure UserRec where
  id : String
  name : String
  email : String
  emailVerified : Bool
  image : Option String
  createdAt : Nat
  updatedAt : Nat
deriving Repr, DecidableEq

/-- A row of the session table. -/
structure SessionRec where
  id : String
  token : String
  userId : String
  expiresAt : Nat
  createdAt : Nat
  updatedAt : Nat
  ipAddress : Option String
  userAgent : Option String
deriving Repr, DecidableEq

/-- A row of the account table (OAuth token columns, always null in this
code path, are omitted). -/
structure AccountRec where
  id : String
  accountId : String
  providerId : String
  userId : String
  createdAt : Nat
  updatedAt : Nat
deriving Repr, DecidableEq

/-- The persistent store: the three tables the auth core touches. -/
structure Store where
  users : List UserRec
  sessions : List SessionRec
  accounts : List AccountRec
deriving Repr, DecidableEq

/-! ## Session validation (src/utils/oauth-providers.ts, validateSession)

The Drizzle query selects from session, left-joins user on
session.userId = user.id, filters on token equality and
expiresAt > now, and takes at most one row. -/

/-- The rows produced by the validateSession query: sessions matching
the token with expiresAt strictly greater than now, each paired with
the joined user row (none when no user has the sessions userId),
limited to one row. -/
def sessionLookup (st : Store) (now : Nat) (tok : String) : List (Option UserRec × SessionRec) :=
  ((st.sessions.filter (fun s => s.token == tok && decide (now < s.expiresAt))).map
    (fun s => (st.users.find? (fun u => u.id == s.userId), s))).take 1

/-- Result of validateSession: either the joined user and session, or
the error message the code returns. -/
inductive ValidateResult where
  | ok (u : UserRec) (s : SessionRec)
  | err (msg : String)
deriving Repr, DecidableEq

/-- validateSession: runs the query; an empty result or a row with a
null joined user yields the single error message. -/
def validateSession (st : Store) (now : Nat) (tok : String) : ValidateResult :=
  match sessionLookup st now tok with
  | [] => .err "Invalid or expired session"
  | (none, _) :: _ => .err "Invalid or expired session"
  | (some u, s) :: _ => .ok u s

/-! ## Bearer extraction (src/utils/oauth-providers.ts, extractAuthToken) -/

/-- Result of extractAuthToken. -/
inductive ExtractResult where
  | ok (token : String)
  | err (msg : String)
deriving Repr, DecidableEq

/-- extractAuthToken: the header must be present (non-null and, by
JavaScript truthiness, non-empty) and start with the literal
"Bearer " scheme; the token is the header with the first occurrence
of "Bearer " removed, and must not be blank. -/
def extractAuthToken (authHeader : Option String) : ExtractResult :=
  match authHeader with
  | none => .err "Missing or invalid authorization header"
  | some h =>
    if h = "" then .err "Missing or invalid authorization header"
    else if ¬ jsStartsWith h "Bearer " then .err "Missing or invalid authorization header"
    else
      let token := jsReplaceFirst h "Bearer "
      if jsTrim token = "" then .err "Empty authorization token"
      else .ok token

/-- Result of the auth middleware (src/middleware/auth.ts): a thrown
401 with a message, or the authenticated user and session. -/
inductive AuthResult where
  | unauthorized (msg : String)
  | ok (u : UserRec) (s : SessionRec)
deriving Repr, DecidableEq

/-- authMiddleware: extract the bearer token, then validate the
session; each failure sets status 401 and throws the error message. -/
def authMiddleware (st : Store) (now : Nat) (authHeader : Option String) : AuthResult :=
  match extractAuthToken authHeader with
  | .err e => .unauthorized e
  | .ok tok =>
    match validateSession st now tok with
    | .err e => .unauthorized e
    | .ok u s => .ok u s

/-- Outcome of the derive guard of the protected routes
(src/routes/protected.ts): a thrown error with an HTTP status, or the
user and session added to the request context. -/
inductive GuardOutcome where
  | thrown (status : Nat) (msg : String)
  | passed (u : UserRec) (s : SessionRec)
deriving Repr, DecidableEq

/-- The derive guard of the protected routes: it inlines the same
query as validateSession; a missing or non-Bearer header throws 401
before any storage access, and a failed lookup throws 401. -/
def deriveGuard (st : Store) (now : Nat) (authHeader : Option String) : GuardOutcome :=
  match authHeader with
  | none => .thrown 401 "Missing authorization header"
  | some h =>
    if h = "" then .thrown 401 "Missing authorization header"
    else if ¬ jsStartsWith h "Bearer " then .thrown 401 "Missing authorization header"
    else
      let token := jsReplaceFirst h "Bearer "
      match sessionLookup st now token with
      | [] => .thrown 401 "Invalid or expired session"
      | (none, _) :: _ => .thrown 401 "Invalid or expired session"
      | (some u, s) :: _ => .passed u s

/-! ## Sign-out and session issuance (src/routes/auth.ts) -/

/-- The sign-out deletion: delete from session where token = tok,
returning the deleted rows. -/
def revokeSession (st : Store) (tok : String) : Store × List SessionRec :=
  ({ st with sessions := st.sessions.filter (fun s => !(s.token == tok)) },
   st.sessions.filter (fun s => s.token == tok))

/-- Step one of session issuance: delete from session where
userId = uid (the single-session cleanup). -/
def signInDeleteSessions (st : Store) (uid : String) : Store :=
  { st with sessions := st.sessions.filter (fun s => !(s.userId == uid)) }

/-- Step two of session issuance: insert the new session row. -/
def signInInsertSession (st : Store) (s : SessionRec) : Store :=
  { st with sessions := st.sessions ++ [s] }

/-- The complete issuance tail of the sign-in route: the delete
statement followed by the insert statement (two separate storage
operations in the code, not one transaction). -/
def issueSession (st : Store) (uid : String) (s : SessionRec) : Store :=
  signInInsertSession (signInDeleteSessions st uid) s

/-- The sessions a user currently owns. -/
def userSessions (st : Store) (uid : String) : List SessionRec :=
  st.sessions.filter (fun s => s.userId == uid)

/-! ## Expired-session sweep (src/utils/session-cleanup.ts) -/

/-- cleanupExpiredSessions: count the sessions with expiresAt < now,
delete them when the count is positive, and return the count. -/
def cleanupExpiredSessions (st : Store) (now : Nat) : Store × Nat :=
  let deletedCount := (st.sessions.filter (fun s => decide (s.expiresAt < now))).length
  let st' :=
    if deletedCount > 0 then
      { st with sessions := st.sessions.filter (fun s => !(decide (s.expiresAt < now))) }
    else st
  (st', deletedCount)

/-! ## Apple token verification (src/utils/oauth-providers.ts, verifyAppleToken) -/

/-- A JSON claim value that may be a string or a boolean (the shape of
the email_verified claim Apple sends). -/
inductive JsonVal where
  | str (s : String)
  | bool (b : Bool)
deriving Repr, DecidableEq

/-- The decoded claims of a verified Apple identity token, as read by
the code: sub, email, email_verified.  Absent claims are none. -/
structure AppleClaims where
  sub : Option String
  email : Option String
  email_verified : Option JsonVal
deriving Repr, DecidableEq

/-- The normalized profile produced by the verifiers. -/
structure UserProfile where
  id : String
  email : String
  name : String
  picture : Option String
  emailVerified : Bool
deriving Repr, DecidableEq

/-- verifyAppleToken, applied to the claims of a
signature/audience/expiry-valid token: requires a truthy sub; when the
email claim is absent (or empty, hence falsy) it synthesizes
sub followed by "@privaterelay.appleid.com"; email_verified is true
exactly for the string "true" or the boolean true; the name is always
the constant "Apple User" and no picture is produced. -/
def verifyAppleToken (claims : AppleClaims) : Option UserProfile :=
  match claims.sub with
  | none => none
  | some subId =>
    if subId = "" then none
    else
      let userEmail :=
        match claims.email with
        | some e => if e = "" then subId ++ "@privaterelay.appleid.com" else e
        | none => subId ++ "@privaterelay.appleid.com"
      let verified :=
        match claims.email_verified with
        | some (.str s) => s == "true"
        | some (.bool b) => b
        | none => false
      some { id := subId, email := userEmail, name := "Apple User",
             picture := none, emailVerified := verified }

/-! ## Sign-in user resolution (src/routes/auth.ts, /:provider handler) -/

/-- The optional name object of the sign-in request body. -/
structure NameInfo where
  firstName : Option String
  lastName : Option String
deriving Repr, DecidableEq

/-- The optional user object of the sign-in request body (Apple sends
it out of band on the first authorization). -/
structure UserInfo where
  name : Option NameInfo
  email : Option String
deriving Repr, DecidableEq

/-- The finalName computation of the Apple branch: when userInfo is
present with a truthy firstName, the name becomes firstName, a space,
and lastName-or-empty, trimmed; otherwise the profile name stands. -/
def appleFinalName (profileName : String) (userInfo : Option UserInfo) : String :=
  match userInfo with
  | none => profileName
  | some ui =>
    match ui.name with
    | none => profileName
    | some n =>
      match n.firstName with
      | none => profileName
      | some fn =>
        if fn = "" then profileName
        else jsTrim (fn ++ " " ++ ((n.lastName).getD ""))

/-- The finalEmail computation of the Apple branch: a truthy
userInfo.email overrides the profile email. -/
def appleFinalEmail (profileEmail : String) (userInfo : Option UserInfo) : String :=
  match userInfo with
  | none => profileEmail
  | some ui =>
    match ui.email with
    | none => profileEmail
    | some e => if e = "" then profileEmail else e

/-- The update statement of the existing-user branch, applied to one
row: the row whose id matches gets the fresh name, the fresh image
(profile.picture, or the stored image when that is falsy) and a fresh
updatedAt. -/
def updateUserRow (finalName : String) (pic : Option String) (now : Nat) (targetId : String)
    (x : UserRec) : UserRec :=
  if x.id == targetId then
    { x with name := finalName, image := jsOrElse pic x.image, updatedAt := now }
  else x

/-- The user lookup / create / update section of the sign-in handler:
select users by finalEmail limit 1; when none exists, insert a new
user (image is profile.picture or null) and a linked account row; when
one exists, update its name, image (profile.picture or the stored
image) and updatedAt.  Returns the store and the resulting user row. -/
def resolveUser (st : Store) (profile : UserProfile) (finalName finalEmail : String)
    (newUserId newAccountId providerId : String) (now : Nat) : Store × UserRec :=
  match (st.users.filter (fun u => u.email == finalEmail)).take 1 with
  | [] =>
    let newUser : UserRec :=
      { id := newUserId, email := finalEmail, name := finalName,
        image := jsOrNull profile.picture, emailVerified := profile.emailVerified,
        createdAt := now, updatedAt := now }
    let newAccount : AccountRec :=
      { id := newAccountId, accountId := profile.id, providerId := providerId,
        userId := newUserId, createdAt := now, updatedAt := now }
    ({ st with users := st.users ++ [newUser], accounts := st.accounts ++ [newAccount] },
     newUser)
  | u :: _ =>
    ({ st with users := st.users.map (updateUserRow finalName profile.picture now u.id) },
     updateUserRow finalName profile.picture now u.id u)

/-! ## Session token generation (src/utils/auth.ts, generateSessionToken)

The code concatenates Date.now().toString(36) with two fragments, each
Math.random().toString(36).substr(2, 16).  A Math.random value in the
major engines is k / 2 to the 52 for a 52-bit k (and in any engine it
is an IEEE-754 double in the unit interval, of which fewer than 2 to
the 62 exist), so the random input of one call is modelled as a
natural number k below 2 to the 52 and the fragment as the first 16
base-36 digits of the fraction k / 2 to the 52. -/

/-- The digit characters of Number.prototype.toString(36). -/
def base36Char (n : Nat) : Char :=
  if n < 10 then Char.ofNat (48 + n) else Char.ofNat (87 + n)

/-- Integer part of toString(36), by repeated division (fuel-bounded
recursion; the fuel n + 1 always suffices). -/
def natToBase36Go : Nat → Nat → List Char → List Char
  | 0, _, acc => acc
  | fuel + 1, n, acc =>
    if n < 36 then base36Char n :: acc
    else natToBase36Go fuel (n / 36) (base36Char (n % 36) :: acc)

/-- Date.now().toString(36). -/
def natToBase36 (n : Nat) : List Char :=
  natToBase36Go (n + 1) n []

/-- The first len base-36 digits after the point of the fraction
num / den. -/
def fracBase36 (num den : Nat) : Nat → List Char
  | 0 => []
  | len + 1 => base36Char (num * 36 / den) :: fracBase36 (num * 36 % den) den len

/-- Math.random().toString(36).substr(2, 16) for a random draw
modelled as k / 2 to the 52. -/
def randFragment (k : Nat) : List Char :=
  fracBase36 k (2 ^ 52) 16

/-- The number of distinct values one Math.random() call can return:
52 random bits in the major JavaScript engines. -/
def mathRandomValues : Nat := 2 ^ 52

/-- generateSessionToken as a function of the clock reading and the
two random draws: timestamp prefix in base 36, then the two random
fragments. -/
def generateSessionToken (nowMs : Nat) (r1 r2 : Nat) : String :=
  ⟨natToBase36 nowMs ++ randFragment r1 ++ randFragment r2⟩

/-- The set of tokens the generator can produce at a fixed clock
reading, over every pair of random draws. -/
def tokenSpace (nowMs : Nat) : Finset String :=
  (Finset.range mathRandomValues ×ˢ Finset.range mathRandomValues).image
    (fun p => generateSessionToken nowMs p.1 p.2)

/-! ## The first-sign-in race (src/routes/auth.ts, user creation)

Two concurrent sign-in requests for the same brand-new email run the
lookup / create / update section in parallel.  Each request is a small
thread whose atomic steps are the individual storage statements of the
handler: the select by email, the user insert (which, at the database,
aborts with a unique-constraint violation when a user with that email
already exists, an error the surrounding try/catch turns into a failed
request), the account insert, and the update of an existing user.  A
schedule is a list of booleans choosing which thread performs its next
step. -/

/-- The per-request constants of one sign-in thread: the generated ids
and the verified profile data it carries. -/
structure ThreadCfg where
  newUserId : String
  newAccountId : String
  providerUserId : String
  providerId : String
  email : String
  name : String
  picture : Option String
  emailVerified : Bool
deriving Repr, DecidableEq

/-- The user row a thread inserts. -/
def mkRaceUser (c : ThreadCfg) (now : Nat) : UserRec :=
  { id := c.newUserId, name := c.name, email := c.email,
    emailVerified := c.emailVerified, image := jsOrNull c.picture,
    createdAt := now, updatedAt := now }

/-- The account row a thread inserts. -/
def mkRaceAccount (c : ThreadCfg) (now : Nat) : AccountRec :=
  { id := c.newAccountId, accountId := c.providerUserId, providerId := c.providerId,
    userId := c.newUserId, createdAt := now, updatedAt := now }

/-- The control point of one sign-in thread between storage steps. -/
inductive TPhase where
  | start
  | insUser
  | insAccount
  | updUser (uid : String)
  | doneCreated
  | doneFetched
  | failed
deriving Repr, DecidableEq

/-- One atomic storage step of a sign-in thread.  At start, the select
by email decides between the create path and the update path; at
insUser, the unique constraint on user.email aborts the request when a
row with that email meanwhile exists; terminal phases do nothing. -/
def threadStep (c : ThreadCfg) (now : Nat) : TPhase → Store → TPhase × Store
  | .start, st =>
    match (st.users.filter (fun u => u.email == c.email)).take 1 with
    | [] => (.insUser, st)
    | u :: _ => (.updUser u.id, st)
  | .insUser, st =>
    if st.users.any (fun u => u.email == c.email) then (.failed, st)
    else (.insAccount, { st with users := st.users ++ [mkRaceUser c now] })
  | .insAccount, st => (.doneCreated, { st with accounts := st.accounts ++ [mkRaceAccount c now] })
  | .updUser uid, st =>
    (.doneFetched, { st with users := st.users.map (updateUserRow c.name c.picture now uid) })
  | .doneCreated, st => (.doneCreated, st)
  | .doneFetched, st => (.doneFetched, st)
  | .failed, st => (.failed, st)

/-- The interleaved state of the two racing requests. -/
structure RaceState where
  pc1 : TPhase
  pc2 : TPhase
  store : Store
deriving Repr, DecidableEq

/-- One scheduler step: true lets thread one move, false thread two. -/
def raceStep (c1 c2 : ThreadCfg) (now1 now2 : Nat) (b : Bool) (rs : RaceState) : RaceState :=
  if b then
    let p := threadStep c1 now1 rs.pc1 rs.store
    { rs with pc1 := p.1, store := p.2 }
  else
    let p := threadStep c2 now2 rs.pc2 rs.store
    { rs with pc2 := p.1, store := p.2 }

/-- Run a whole schedule from a state. -/
def raceRun (c1 c2 : ThreadCfg) (now1 now2 : Nat) (bs : List Bool) (rs : RaceState) : RaceState :=
  bs.foldl (fun s b => raceStep c1 c2 now1 now2 b s) rs

/-- The number of user rows carrying an email. -/
def usersWithEmail (st : Store) (e : String) : Nat :=
  (st.users.filter (fun u => u.email == e)).length

/-- The number of account rows carrying a provider identity. -/
def accountsWithIdentity (st : Store) (pid acct : String) : Nat :=
  (st.accounts.filter (fun a => a.providerId == pid && a.accountId == acct)).length

/-- A thread past its successful user insert. -/
def createdB : TPhase → Bool
  | .insAccount => true
  | .doneCreated => true
  | _ => false

/-- A thread that has completed its account insert. -/
def doneCreatedB : TPhase → Bool
  | .doneCreated => true
  | _ => false

/-- A thread that has observed an existing user with the email: it took
the update path or aborted on the unique constraint. -/
def observedB : TPhase → Bool
  | .updUser _ => true
  | .doneFetched => true
  | .failed => true
  | _ => false

/-- A finished thread: the request returned (successfully or not). -/
def finishedB : TPhase → Bool
  | .doneCreated => true
  | .doneFetched => true
  | .failed => true
  | _ => false

/-- The interleaving invariant for two racing sign-ins of the same
brand-new identity: the user rows with the email are exactly the
successful inserts, at most one thread ever succeeds in inserting, the
account rows with the identity are exactly the completed create paths,
and a thread on the update/abort path means the other thread already
inserted. -/
def RaceInv (e pid acct : String) (rs : RaceState) : Prop :=
  usersWithEmail rs.store e = (createdB rs.pc1).toNat + (createdB rs.pc2).toNat
  ∧ ¬(createdB rs.pc1 = true ∧ createdB rs.pc2 = true)
  ∧ accountsWithIdentity rs.store pid acct
      = (doneCreatedB rs.pc1).toNat + (doneCreatedB rs.pc2).toNat
  ∧ (observedB rs.pc1 = true → createdB rs.pc2 = true)
  ∧ (observedB rs.pc2 = true → createdB rs.pc1 = true)

/-! ## Shared lemmas -/

/-- Under token uniqueness, the validateSession query filter keeps
exactly the matching session when it is unexpired, and nothing when it
is expired. -/
theorem sessionFilter_of_unique (l : List SessionRec) (s : SessionRec) (now : Nat)
    (huniq : ∀ s₁ ∈ l, s₁.token = s.token → s₁ = s) :
    l.filter (fun x => x.token == s.token && decide (now < x.expiresAt))
      = if now < s.expiresAt then List.replicate
          (l.filter (fun x => x.token == s.token && decide (now < x.expiresAt))).length s
        else [] := by
  by_cases hlt : now < s.expiresAt
  · simp only [if_pos hlt]
    apply List.eq_replicate_of_mem
    intro a ha
    have h₁ := List.mem_filter.1 ha
    have h₂ := h₁.2
    simp only [Bool.and_eq_true, beq_iff_eq, decide_eq_true_eq] at h₂
    exact huniq a h₁.1 h₂.1
  · simp only [if_neg hlt]
    rw [List.filter_eq_nil_iff]
    intro a ha
    simp only [Bool.and_eq_true, beq_iff_eq, decide_eq_true_eq, not_and]
    intro htok hckt
    exact hlt (huniq a ha htok ▸ hckt)

/-- C1: for an issued session whose token is unique in the store and
whose owning user exists, validateSession succeeds with exactly that
user and session at every instant strictly before expiresAt, and fails
with the invalid-or-expired error at every instant at or after
expiresAt; in particular, at exactly expiresAt the check
expiresAt > now is false and the session counts as expired. -/
theorem validateSession_window (st : Store) (s : SessionRec) (u : UserRec) (now : Nat)
    (hs : s ∈ st.sessions)
    (huniq : ∀ s₁ ∈ st.sessions, s₁.token = s.token → s₁ = s)
    (hu : st.users.find? (fun x => x.id == s.userId) = some u) :
    (now < s.expiresAt → validateSession st now s.token = .ok u s)
    ∧ (s.expiresAt ≤ now → validateSession st now s.token = .err "Invalid or expired session") := by
  have hrep := sessionFilter_of_unique st.sessions s now huniq
  constructor
  · intro hlt
    rw [if_pos hlt] at hrep
    have hmem : s ∈ st.sessions.filter
        (fun x => x.token == s.token && decide (now < x.expiresAt)) := by
      refine List.mem_filter.2 ⟨hs, ?_⟩
      simp [hlt]
    have hpos : 0 < (st.sessions.filter
        (fun x => x.token == s.token && decide (now < x.expiresAt))).length :=
      List.length_pos.2 (List.ne_nil_of_mem hmem)
    unfold validateSession sessionLookup
    rw [hrep, List.map_replicate, List.take_replicate, Nat.min_eq_left hpos]
    simp [hu]
  · intro hge
    rw [if_neg (Nat.not_lt.2 hge)] at hrep
    unfold validateSession sessionLookup
    rw [hrep]
    rfl

/-- Witness for C1: a concrete store with one user and one session
expiring at 1000; validation succeeds at 999 and fails at 1000. -/
theorem validateSession_window_witness :
    ((⟨"s1", "tok1", "u1", 1000, 0, 0, none, none⟩ : SessionRec)
        ∈ (⟨[⟨"u1", "Ada", "ada@x.com", true, none, 0, 0⟩],
            [⟨"s1", "tok1", "u1", 1000, 0, 0, none, none⟩], []⟩ : Store).sessions)
    ∧ validateSession
        ⟨[⟨"u1", "Ada", "ada@x.com", true, none, 0, 0⟩],
         [⟨"s1", "tok1", "u1", 1000, 0, 0, none, none⟩], []⟩ 999 "tok1"
        = .ok ⟨"u1", "Ada", "ada@x.com", true, none, 0, 0⟩
            ⟨"s1", "tok1", "u1", 1000, 0, 0, none, none⟩
    ∧ validateSession
        ⟨[⟨"u1", "Ada", "ada@x.com", true, none, 0, 0⟩],
         [⟨"s1", "tok1", "u1", 1000, 0, 0, none, none⟩], []⟩ 1000 "tok1"
        = .err "Invalid or expired session" := by
  refine ⟨by decide, ?_, ?_⟩
  · exact (validateSession_window
      ⟨[⟨"u1", "Ada", "ada@x.com", true, none, 0, 0⟩],
       [⟨"s1", "tok1", "u1", 1000, 0, 0, none, none⟩], []⟩
      ⟨"s1", "tok1", "u1", 1000, 0, 0, none, none⟩
      ⟨"u1", "Ada", "ada@x.com", true, none, 0, 0⟩ 999
      (by decide) (by decide) (by decide)).1 (by decide)
  · exact (validateSession_window
      ⟨[⟨"u1", "Ada", "ada@x.com", true, none, 0, 0⟩],
       [⟨"s1", "tok1", "u1", 1000, 0, 0, none, none⟩], []⟩
      ⟨"s1", "tok1", "u1", 1000, 0, 0, none, none⟩
      ⟨"u1", "Ada", "ada@x.com", true, none, 0, 0⟩ 1000
      (by decide) (by decide) (by decide)).2 (by decide)

/-- C2: for every store state and every token, the sign-out deletion of
that token followed immediately by validateSession fails with the
invalid-or-expired error, at every instant; and the result is the very
result validateSession gives on a store whose session table never held
the token at all, so a deleted token is treated identically to one
that never existed. -/
theorem revoke_then_validate (st : Store) (tok : String) (now : Nat) :
    validateSession (revokeSession st tok).1 now tok = .err "Invalid or expired session"
    ∧ validateSession (revokeSession st tok).1 now tok
        = validateSession ⟨st.users, [], st.accounts⟩ now tok := by
  have hnil : (revokeSession st tok).1.sessions.filter
      (fun s => s.token == tok && decide (now < s.expiresAt)) = [] := by
    rw [List.filter_eq_nil_iff]
    intro a ha
    have ha₂ := (List.mem_filter.1 ha).2
    simp only [Bool.not_eq_true', beq_eq_false_iff_ne, ne_eq] at ha₂
    simp [ha₂]
  constructor
  · unfold validateSession sessionLookup
    rw [hnil]
    rfl
  · unfold validateSession sessionLookup
    rw [hnil]
    rfl

/-- The sweep, on any store: remaining sessions are exactly the
unexpired ones, the other tables are untouched, and the reported count
is the number of expired sessions. -/
theorem cleanup_core (s₀ : Store) (now : Nat) :
    (cleanupExpiredSessions s₀ now).1.sessions
        = s₀.sessions.filter (fun s => !(decide (s.expiresAt < now)))
    ∧ (cleanupExpiredSessions s₀ now).1.users = s₀.users
    ∧ (cleanupExpiredSessions s₀ now).1.accounts = s₀.accounts
    ∧ (cleanupExpiredSessions s₀ now).2
        = (s₀.sessions.filter (fun s => decide (s.expiresAt < now))).length := by
  simp only [cleanupExpiredSessions, gt_iff_lt]
  by_cases h : 0 < (s₀.sessions.filter (fun s => decide (s.expiresAt < now))).length
  · rw [if_pos h]
    refine ⟨?_, ?_, ?_, ?_⟩ <;> trivial
  · rw [if_neg h]
    have hlen : (s₀.sessions.filter (fun s => decide (s.expiresAt < now))).length = 0 :=
      Nat.eq_zero_of_not_pos h
    have hnone : ∀ a ∈ s₀.sessions, ¬ a.expiresAt < now := by
      intro a ha hlt
      have hmem : a ∈ s₀.sessions.filter (fun s => decide (s.expiresAt < now)) :=
        List.mem_filter.2 ⟨ha, by simpa using hlt⟩
      rw [List.length_eq_zero.1 hlen] at hmem
      cases hmem
    have hid : s₀.sessions.filter (fun s => !(decide (s.expiresAt < now))) = s₀.sessions := by
      rw [List.filter_eq_self]
      intro a ha
      simpa using hnone a ha
    refine ⟨hid.symm, ?_, ?_, ?_⟩ <;> trivial

/-- C3: the sweep deletes exactly the sessions with expiresAt < now,
leaves every other session and the user and account tables unchanged,
reports the number of sessions so deleted (hence zero, without error,
when none are expired), and an immediately repeated sweep at the same
instant reports zero deletions. -/
theorem cleanup_sweep_exact (st : Store) (now : Nat) :
    (cleanupExpiredSessions st now).1.sessions
        = st.sessions.filter (fun s => !(decide (s.expiresAt < now)))
    ∧ (cleanupExpiredSessions st now).1.users = st.users
    ∧ (cleanupExpiredSessions st now).1.accounts = st.accounts
    ∧ (cleanupExpiredSessions st now).2
        = (st.sessions.filter (fun s => decide (s.expiresAt < now))).length
    ∧ (cleanupExpiredSessions (cleanupExpiredSessions st now).1 now).2 = 0 := by
  obtain ⟨h₁, h₂, h₃, h₄⟩ := cleanup_core st now
  refine ⟨h₁, h₂, h₃, h₄, ?_⟩
  have h₅ := (cleanup_core (cleanupExpiredSessions st now).1 now).2.2.2
  rw [h₅, h₁, List.length_eq_zero, List.filter_eq_nil_iff]
  intro a ha
  have ha₂ := (List.mem_filter.1 ha).2
  simp only [Bool.not_eq_true', decide_eq_false_iff_not] at ha₂
  simpa using ha₂

/-- C4: at any fixed clock reading, the set of tokens the generator can
produce has strictly fewer than 2 to the 128 elements: the suffix
beyond the time-ordered base-36 timestamp is a function of just two
Math.random draws of 52 random bits each, so at most 2 to the 104
distinct tokens exist per timestamp (even counting every IEEE-754
double in the unit interval, below 2 to the 62 values per draw, the
pair stays below 2 to the 124).  The spec requirement of at least
2 to the 128 distinct tokens per timestamp therefore fails on the
code, which moreover draws from the seedable, non-cryptographic
Math.random generator while its own comment promises a secure token. -/
theorem tokenSpace_card_below_128_bits (nowMs : Nat) :
    (tokenSpace nowMs).card < 2 ^ 128 := by
  have h₁ : (tokenSpace nowMs).card ≤ mathRandomValues * mathRandomValues := by
    calc (tokenSpace nowMs).card
        ≤ (Finset.range mathRandomValues ×ˢ Finset.range mathRandomValues).card :=
          Finset.card_image_le
      _ = mathRandomValues * mathRandomValues := by
          rw [Finset.card_product, Finset.card_range]
  have h₂ : mathRandomValues * mathRandomValues < 2 ^ 128 := by
    show (2 : Nat) ^ 52 * 2 ^ 52 < 2 ^ 128
    rw [← pow_add]
    exact Nat.pow_lt_pow_right (by norm_num) (by norm_num)
  omega

/-- A store holding one user who owns one live session: the input on
which the issuance window is exhibited. -/
def exWindowStore : Store :=
  ⟨[⟨"user_1", "Ada", "ada@x.com", true, none, 0, 0⟩],
   [⟨"sess_0", "tok0", "user_1", 1000, 0, 0, none, none⟩], []⟩

/-- Counterexample to C5: session issuance is not one atomic unit.  The
handler runs the delete of all prior sessions and the insert of the
new session as two separate storage statements, and after the first
statement alone the user owns no session at all, an intermediate state
the claim says cannot exist. -/
theorem issuance_window_counterexample :
    userSessions exWindowStore "user_1" ≠ []
    ∧ userSessions (signInDeleteSessions exWindowStore "user_1") "user_1" = []
    ∧ signInDeleteSessions exWindowStore "user_1"
        ≠ issueSession exWindowStore "user_1"
          ⟨"sess_1", "tok1", "user_1", 2000, 1000, 1000, none, none⟩ := by
  refine ⟨by decide, by decide, by decide⟩

/-- C5 amended: issuance performs the prior-session delete and the new
insert as two separate storage operations.  When both complete, the
user owns exactly the new session; but in the intermediate state after
the delete alone the user is sessionless, so a failure between the two
statements leaves the user with no session at all. -/
theorem issuance_two_step (st : Store) (uid : String) (s : SessionRec)
    (h : s.userId = uid) :
    userSessions (issueSession st uid s) uid = [s]
    ∧ userSessions (signInDeleteSessions st uid) uid = [] := by
  have hdel : ∀ st₀ : Store, userSessions (signInDeleteSessions st₀ uid) uid = [] := by
    intro st₀
    unfold userSessions signInDeleteSessions
    rw [List.filter_eq_nil_iff]
    intro a ha
    have ha₂ := (List.mem_filter.1 ha).2
    simp only [Bool.not_eq_eq_eq_not, Bool.not_true, beq_eq_false_iff_ne, ne_eq] at ha₂
    simp [ha₂]
  constructor
  · unfold issueSession signInInsertSession userSessions
    rw [List.filter_append]
    have h₁ : userSessions (signInDeleteSessions st uid) uid = [] := hdel st
    unfold userSessions at h₁
    rw [h₁]
    simp [h]
  · exact hdel st

/-- Witness for the amended C5 theorem at a concrete store and session. -/
theorem issuance_two_step_witness :
    (⟨"sess_1", "tok1", "user_1", 2000, 1000, 1000, none, none⟩ : SessionRec).userId = "user_1"
    ∧ userSessions (issueSession exWindowStore "user_1"
        ⟨"sess_1", "tok1", "user_1", 2000, 1000, 1000, none, none⟩) "user_1"
        = [⟨"sess_1", "tok1", "user_1", 2000, 1000, 1000, none, none⟩]
    ∧ userSessions (signInDeleteSessions exWindowStore "user_1") "user_1" = [] := by
  refine ⟨by decide, ?_, ?_⟩
  · exact (issuance_two_step exWindowStore "user_1"
      ⟨"sess_1", "tok1", "user_1", 2000, 1000, 1000, none, none⟩ (by decide)).1
  · exact (issuance_two_step exWindowStore "user_1"
      ⟨"sess_1", "tok1", "user_1", 2000, 1000, 1000, none, none⟩ (by decide)).2

/-- When the query predicate matches no session (absent token, or a
token all of whose sessions are expired), the validateSession query
returns no row. -/
theorem sessionLookup_nil (st : Store) (now : Nat) (tok : String)
    (h : ∀ s ∈ st.sessions, s.token = tok → ¬ now < s.expiresAt) :
    sessionLookup st now tok = [] := by
  unfold sessionLookup
  have hfil : st.sessions.filter (fun s => s.token == tok && decide (now < s.expiresAt)) = [] := by
    rw [List.filter_eq_nil_iff]
    intro a ha
    simp only [Bool.and_eq_true, beq_iff_eq, decide_eq_true_eq, not_and]
    exact h a ha
  rw [hfil]
  rfl

/-- Inversion of a successful bearer extraction: the header was
non-empty, carried the scheme, and the token is the header with the
first "Bearer " occurrence removed. -/
theorem extractAuthToken_ok_inv (h t : String)
    (hok : extractAuthToken (some h) = .ok t) :
    ¬ h = "" ∧ jsStartsWith h "Bearer " = true ∧ jsReplaceFirst h "Bearer " = t := by
  simp only [extractAuthToken] at hok
  by_cases h₁ : h = ""
  · rw [if_pos h₁] at hok
    cases hok
  · rw [if_neg h₁] at hok
    by_cases h₂ : jsStartsWith h "Bearer " = true
    · rw [if_neg (by simp [h₂])] at hok
      by_cases h₃ : jsTrim (jsReplaceFirst h "Bearer ") = ""
      · rw [if_pos h₃] at hok
        cases hok
      · rw [if_neg h₃] at hok
        cases hok
        exact ⟨h₁, h₂, rfl⟩
    · rw [if_pos (by simpa using h₂)] at hok
      cases hok

/-- C6: a token absent from the store and a token present only on
expired sessions are externally indistinguishable: validateSession
returns the one identical error for both, and through the derive guard
of the protected routes both surface as the same thrown 401 with the
same message, so a caller can never learn whether a rejected token
once existed. -/
theorem unauthorized_indistinguishable (st : Store) (now : Nat) (t₁ t₂ h₁ h₂ : String)
    (habsent : ∀ s ∈ st.sessions, s.token ≠ t₁)
    (hexpired : ∀ s ∈ st.sessions, s.token = t₂ → s.expiresAt ≤ now)
    (hx₁ : extractAuthToken (some h₁) = .ok t₁)
    (hx₂ : extractAuthToken (some h₂) = .ok t₂) :
    validateSession st now t₁ = .err "Invalid or expired session"
    ∧ validateSession st now t₂ = .err "Invalid or expired session"
    ∧ validateSession st now t₁ = validateSession st now t₂
    ∧ deriveGuard st now (some h₁) = .thrown 401 "Invalid or expired session"
    ∧ deriveGuard st now (some h₂) = .thrown 401 "Invalid or expired session"
    ∧ deriveGuard st now (some h₁) = deriveGuard st now (some h₂) := by
  have hnil₁ : sessionLookup st now t₁ = [] :=
    sessionLookup_nil st now t₁ (fun s hs heq _ => habsent s hs heq)
  have hnil₂ : sessionLookup st now t₂ = [] :=
    sessionLookup_nil st now t₂
      (fun s hs heq hlt => Nat.not_lt.2 (hexpired s hs heq) hlt)
  obtain ⟨he₁, hb₁, hr₁⟩ := extractAuthToken_ok_inv h₁ t₁ hx₁
  obtain ⟨he₂, hb₂, hr₂⟩ := extractAuthToken_ok_inv h₂ t₂ hx₂
  have hv₁ : validateSession st now t₁ = .err "Invalid or expired session" := by
    unfold validateSession
    rw [hnil₁]
  have hv₂ : validateSession st now t₂ = .err "Invalid or expired session" := by
    unfold validateSession
    rw [hnil₂]
  have hg₁ : deriveGuard st now (some h₁) = .thrown 401 "Invalid or expired session" := by
    simp only [deriveGuard]
    rw [if_neg he₁, if_neg (by simp [hb₁]), hr₁, hnil₁]
  have hg₂ : deriveGuard st now (some h₂) = .thrown 401 "Invalid or expired session" := by
    simp only [deriveGuard]
    rw [if_neg he₂, if_neg (by simp [hb₂]), hr₂, hnil₂]
  exact ⟨hv₁, hv₂, hv₁.trans hv₂.symm, hg₁, hg₂, hg₁.trans hg₂.symm⟩

/-- Witness for C6: token "gone" is absent from the concrete store,
token "old1" only names a session expired at time 500 while now is
2000; both are rejected with the identical outcome. -/
theorem unauthorized_indistinguishable_witness :
    (∀ s ∈ (⟨[⟨"u1", "Ada", "ada@x.com", true, none, 0, 0⟩],
        [⟨"s1", "old1", "u1", 500, 0, 0, none, none⟩], []⟩ : Store).sessions,
        s.token ≠ "gone")
    ∧ (∀ s ∈ (⟨[⟨"u1", "Ada", "ada@x.com", true, none, 0, 0⟩],
        [⟨"s1", "old1", "u1", 500, 0, 0, none, none⟩], []⟩ : Store).sessions,
        s.token = "old1" → s.expiresAt ≤ 2000)
    ∧ deriveGuard ⟨[⟨"u1", "Ada", "ada@x.com", true, none, 0, 0⟩],
        [⟨"s1", "old1", "u1", 500, 0, 0, none, none⟩], []⟩ 2000 (some "Bearer gone")
        = .thrown 401 "Invalid or expired session"
    ∧ deriveGuard ⟨[⟨"u1", "Ada", "ada@x.com", true, none, 0, 0⟩],
        [⟨"s1", "old1", "u1", 500, 0, 0, none, none⟩], []⟩ 2000 (some "Bearer old1")
        = .thrown 401 "Invalid or expired session" := by
  refine ⟨by decide, by decide, ?_, ?_⟩
  · exact (unauthorized_indistinguishable
      ⟨[⟨"u1", "Ada", "ada@x.com", true, none, 0, 0⟩],
       [⟨"s1", "old1", "u1", 500, 0, 0, none, none⟩], []⟩ 2000
      "gone" "old1" "Bearer gone" "Bearer old1"
      (by decide) (by decide) (by decide) (by decide)).2.2.2.1
  · exact (unauthorized_indistinguishable
      ⟨[⟨"u1", "Ada", "ada@x.com", true, none, 0, 0⟩],
       [⟨"s1", "old1", "u1", 500, 0, 0, none, none⟩], []⟩ 2000
      "gone" "old1" "Bearer gone" "Bearer old1"
      (by decide) (by decide) (by decide) (by decide)).2.2.2.2.1

/-- C8: a missing header or one that does not literally begin with the
"Bearer " scheme makes the middleware fail with the missing-credential
error, and the outcome is the same for every store state and clock
reading, so no storage lookup can influence it. -/
theorem missing_credential_no_lookup (st₁ st₂ : Store) (now₁ now₂ : Nat)
    (header : Option String)
    (hbad : header = none ∨ ∃ h, header = some h ∧ jsStartsWith h "Bearer " = false) :
    authMiddleware st₁ now₁ header
      = .unauthorized "Missing or invalid authorization header"
    ∧ authMiddleware st₁ now₁ header = authMiddleware st₂ now₂ header := by
  have hmain : ∀ (st : Store) (now : Nat),
      authMiddleware st now header
        = .unauthorized "Missing or invalid authorization header" := by
    intro st now
    rcases hbad with hnone | ⟨h, hsome, hns⟩
    · rw [hnone]
      rfl
    · rw [hsome]
      simp only [authMiddleware, extractAuthToken]
      by_cases h₁ : h = ""
      · rw [if_pos h₁]
      · rw [if_neg h₁, if_pos (by simp [hns])]
  exact ⟨hmain st₁ now₁, (hmain st₁ now₁).trans (hmain st₂ now₂).symm⟩

/-- Witness for C8: the malformed header "Token abc" is rejected as a
missing credential on two entirely different stores. -/
theorem missing_credential_no_lookup_witness :
    ((some "Token abc" : Option String) = none
      ∨ ∃ h, (some "Token abc" : Option String) = some h
          ∧ jsStartsWith h "Bearer " = false)
    ∧ authMiddleware ⟨[], [], []⟩ 0 (some "Token abc")
        = .unauthorized "Missing or invalid authorization header"
    ∧ authMiddleware ⟨[], [], []⟩ 0 (some "Token abc")
        = authMiddleware ⟨[⟨"u1", "Ada", "ada@x.com", true, none, 0, 0⟩],
            [⟨"s1", "abc", "u1", 99999, 0, 0, none, none⟩], []⟩ 777 (some "Token abc") := by
  refine ⟨Or.inr ⟨"Token abc", rfl, by decide⟩, ?_, ?_⟩
  · exact (missing_credential_no_lookup ⟨[], [], []⟩
      ⟨[⟨"u1", "Ada", "ada@x.com", true, none, 0, 0⟩],
       [⟨"s1", "abc", "u1", 99999, 0, 0, none, none⟩], []⟩ 0 777 (some "Token abc")
      (Or.inr ⟨"Token abc", rfl, by decide⟩)).1
  · exact (missing_credential_no_lookup ⟨[], [], []⟩
      ⟨[⟨"u1", "Ada", "ada@x.com", true, none, 0, 0⟩],
       [⟨"s1", "abc", "u1", 99999, 0, 0, none, none⟩], []⟩ 0 777 (some "Token abc")
      (Or.inr ⟨"Token abc", rfl, by decide⟩)).2

/-- C7: an Apple verification whose claims carry a truthy sub but no
email claim, with no out-of-band user.email supplied, produces a
profile whose email is the non-null address synthesized
deterministically from the provider user id; and when no user with
that email exists yet, the sign-in handler persists a user row
carrying exactly that synthesized email. -/
theorem apple_synthesized_email (claims : AppleClaims) (pid : String) (ui : Option UserInfo)
    (st : Store) (newUserId newAccountId : String) (now : Nat)
    (hsub : claims.sub = some pid) (hpid : ¬ pid = "")
    (hmail : claims.email = none)
    (hui : ∀ u, ui = some u → u.email = none)
    (hnew : ∀ u ∈ st.users, ¬ u.email = pid ++ "@privaterelay.appleid.com") :
    ∃ profile, verifyAppleToken claims = some profile
    ∧ profile.email = pid ++ "@privaterelay.appleid.com"
    ∧ appleFinalEmail profile.email ui = pid ++ "@privaterelay.appleid.com"
    ∧ (resolveUser st profile (appleFinalName profile.name ui)
        (appleFinalEmail profile.email ui) newUserId newAccountId "apple" now).2.email
        = pid ++ "@privaterelay.appleid.com"
    ∧ (resolveUser st profile (appleFinalName profile.name ui)
        (appleFinalEmail profile.email ui) newUserId newAccountId "apple" now).2
        ∈ (resolveUser st profile (appleFinalName profile.name ui)
            (appleFinalEmail profile.email ui) newUserId newAccountId "apple" now).1.users := by
  have hv : verifyAppleToken claims = some
      { id := pid, email := pid ++ "@privaterelay.appleid.com", name := "Apple User",
        picture := none,
        emailVerified :=
          match claims.email_verified with
          | some (.str s) => s == "true"
          | some (.bool b) => b
          | none => false } := by
    simp only [verifyAppleToken, hsub, hmail]
    rw [if_neg hpid]
  refine ⟨_, hv, rfl, ?_⟩
  have hfe : appleFinalEmail (pid ++ "@privaterelay.appleid.com") ui
      = pid ++ "@privaterelay.appleid.com" := by
    cases ui with
    | none => rfl
    | some u =>
      have := hui u rfl
      simp only [appleFinalEmail, this]
  refine ⟨hfe, ?_⟩
  have hfil : (st.users.filter
      (fun u => u.email == appleFinalEmail (pid ++ "@privaterelay.appleid.com") ui)).take 1
      = [] := by
    rw [hfe]
    have : st.users.filter (fun u => u.email == pid ++ "@privaterelay.appleid.com") = [] := by
      rw [List.filter_eq_nil_iff]
      intro a ha
      simpa using hnew a ha
    rw [this]
    rfl
  simp only [resolveUser, hfil]
  constructor
  · rw [hfe]
  · exact List.mem_append_right _ (List.mem_singleton.2 rfl)

/-- Witness for C7 at concrete claims with a hidden email: the
synthesized private-relay address is produced and persisted. -/
theorem apple_synthesized_email_witness :
    (⟨some "apple123", none, some (.bool true)⟩ : AppleClaims).sub = some "apple123"
    ∧ ∃ profile,
      verifyAppleToken ⟨some "apple123", none, some (.bool true)⟩ = some profile
      ∧ profile.email = "apple123" ++ "@privaterelay.appleid.com"
      ∧ appleFinalEmail profile.email none = "apple123" ++ "@privaterelay.appleid.com"
      ∧ (resolveUser ⟨[], [], []⟩ profile (appleFinalName profile.name none)
          (appleFinalEmail profile.email none) "user_9" "account_9" "apple" 50).2.email
          = "apple123" ++ "@privaterelay.appleid.com"
      ∧ (resolveUser ⟨[], [], []⟩ profile (appleFinalName profile.name none)
          (appleFinalEmail profile.email none) "user_9" "account_9" "apple" 50).2
          ∈ (resolveUser ⟨[], [], []⟩ profile (appleFinalName profile.name none)
              (appleFinalEmail profile.email none) "user_9" "account_9" "apple" 50).1.users := by
  refine ⟨rfl, ?_⟩
  exact apple_synthesized_email ⟨some "apple123", none, some (.bool true)⟩ "apple123" none
    ⟨[], [], []⟩ "user_9" "account_9" 50 rfl (by decide) rfl
    (fun u hu => by cases hu) (fun u hu => by cases hu)

/-- C10: when an existing user signs in again through the Apple
provider and the request carries no user-info payload with a first
name, the handler overwrites the stored display name with the constant
"Apple User" (the name verifyAppleToken always reports), while the
stored email is untouched and, the Apple profile never carrying a
picture, the stored image is also untouched. -/
theorem apple_resignin_overwrites_name (st : Store) (u : UserRec) (claims : AppleClaims)
    (profile : UserProfile) (ui : Option UserInfo)
    (newUserId newAccountId : String) (now : Nat)
    (hv : verifyAppleToken claims = some profile)
    (hfn : ∀ ni, ui = some ni → ∀ n, ni.name = some n →
        n.firstName = none ∨ n.firstName = some "")
    (hlook : (st.users.filter
        (fun x => x.email == appleFinalEmail profile.email ui)).take 1 = [u]) :
    (resolveUser st profile (appleFinalName profile.name ui)
        (appleFinalEmail profile.email ui) newUserId newAccountId "apple" now).1.users
      = st.users.map (fun x =>
          if x.id == u.id then { x with name := "Apple User", updatedAt := now } else x)
    ∧ (resolveUser st profile (appleFinalName profile.name ui)
        (appleFinalEmail profile.email ui) newUserId newAccountId "apple" now).2
      = { u with name := "Apple User", updatedAt := now } := by
  have hshape : profile.name = "Apple User" ∧ profile.picture = none := by
    simp only [verifyAppleToken] at hv
    cases hs : claims.sub with
    | none => rw [hs] at hv; cases hv
    | some subId =>
      simp only [hs] at hv
      by_cases hz : subId = ""
      · rw [if_pos hz] at hv; cases hv
      · rw [if_neg hz] at hv
        cases hv
        exact ⟨rfl, rfl⟩
  have hname : appleFinalName profile.name ui = "Apple User" := by
    rw [← hshape.1]
    cases ui with
    | none => rfl
    | some ni =>
      cases hn : ni.name with
      | none => simp [appleFinalName, hn]
      | some n =>
        rcases hfn ni rfl n hn with hfn₀ | hfn₀ <;>
          simp [appleFinalName, hn, hfn₀]
  have hfun : updateUserRow (appleFinalName profile.name ui) profile.picture now u.id
      = fun x => if x.id == u.id then { x with name := "Apple User", updatedAt := now }
          else x := by
    funext x
    rw [updateUserRow, hname, hshape.2]
    rfl
  simp only [resolveUser, hlook]
  constructor
  · rw [hfun]
  · rw [hfun]
    simp

/-- Witness for C10: a user whose real stored name is then replaced by
the constant "Apple User" on a repeat Apple sign-in, with the email and
image columns untouched. -/
theorem apple_resignin_overwrites_name_witness :
    verifyAppleToken ⟨some "apple123", some "grace@x.com", some (.str "true")⟩
      = some ⟨"apple123", "grace@x.com", "Apple User", none, true⟩
    ∧ (resolveUser
        ⟨[⟨"user_1", "Grace Hopper", "grace@x.com", true, some "pic.png", 0, 0⟩], [], []⟩
        ⟨"apple123", "grace@x.com", "Apple User", none, true⟩
        (appleFinalName "Apple User" none) (appleFinalEmail "grace@x.com" none)
        "user_9" "account_9" "apple" 70).1.users
      = [⟨"user_1", "Apple User", "grace@x.com", true, some "pic.png", 0, 70⟩]
    ∧ (resolveUser
        ⟨[⟨"user_1", "Grace Hopper", "grace@x.com", true, some "pic.png", 0, 0⟩], [], []⟩
        ⟨"apple123", "grace@x.com", "Apple User", none, true⟩
        (appleFinalName "Apple User" none) (appleFinalEmail "grace@x.com" none)
        "user_9" "account_9" "apple" 70).2
      = ⟨"user_1", "Apple User", "grace@x.com", true, some "pic.png", 0, 70⟩ := by
  have hmain := apple_resignin_overwrites_name
    ⟨[⟨"user_1", "Grace Hopper", "grace@x.com", true, some "pic.png", 0, 0⟩], [], []⟩
    ⟨"user_1", "Grace Hopper", "grace@x.com", true, some "pic.png", 0, 0⟩
    ⟨some "apple123", some "grace@x.com", some (.str "true")⟩
    ⟨"apple123", "grace@x.com", "Apple User", none, true⟩ none
    "user_9" "account_9" 70 (by decide) (fun ni hni => by cases hni) (by decide)
  refine ⟨by decide, ?_, ?_⟩
  · rw [hmain.1]
    decide
  · rw [hmain.2]

/-! ## Lemmas for the sign-in race -/

/-- Appending one element changes a filtered length by whether the
element passes the filter. -/
theorem filterLen_append {α : Type} (l : List α) (a : α) (p : α → Bool) :
    ((l ++ [a]).filter p).length = (l.filter p).length + (p a).toNat := by
  rw [List.filter_append, List.length_append]
  cases h : p a <;> simp [List.filter_cons, h]

/-- A map that does not change whether elements pass the filter leaves
the filtered length alone. -/
theorem filterLen_map {α : Type} (l : List α) (f : α → α) (p : α → Bool)
    (hf : ∀ a, p (f a) = p a) :
    ((l.map f).filter p).length = (l.filter p).length := by
  induction l with
  | nil => rfl
  | cons a t ih =>
    simp only [List.map_cons, List.filter_cons, hf a]
    cases h : p a <;> simp [ih]

/-- The update statement never touches the email column. -/
theorem updateUserRow_email (nm : String) (pic : Option String) (now : Nat) (uid : String)
    (x : UserRec) : (updateUserRow nm pic now uid x).email = x.email := by
  unfold updateUserRow
  by_cases h : (x.id == uid) = true
  · rw [if_pos h]
  · rw [if_neg h]

/-- The head of a one-element take is a member of the list. -/
theorem mem_of_take_one {α : Type} (l : List α) (a : α) (rest : List α)
    (h : l.take 1 = a :: rest) : a ∈ l := by
  cases l with
  | nil => cases h
  | cons b t =>
    have hb : b = a := by
      have := congrArg (fun x => x.head?) h
      simpa using this
    rw [← hb]
    exact List.mem_cons_self b t

/-- A store on which the select by email finds a row holds at least one
user with the email. -/
theorem usersWithEmail_pos (s : Store) (e : String) (u : UserRec) (rest : List UserRec)
    (hsel : (s.users.filter (fun x => x.email == e)).take 1 = u :: rest) :
    1 ≤ usersWithEmail s e := by
  have hmem := mem_of_take_one _ u rest hsel
  exact List.length_pos.2 (List.ne_nil_of_mem hmem)

/-- A store on which the any-check by email fails holds no user with
the email. -/
theorem usersWithEmail_zero (s : Store) (e : String)
    (h : s.users.any (fun u => u.email == e) = false) :
    usersWithEmail s e = 0 := by
  unfold usersWithEmail
  rw [List.length_eq_zero, List.filter_eq_nil_iff]
  intro a ha hp
  rw [List.any_eq_false] at h
  exact h a ha hp

/-- Completing the create path implies having passed the user insert. -/
theorem createdB_of_doneCreatedB (pc : TPhase) (h : doneCreatedB pc = true) :
    createdB pc = true := by
  cases pc <;> first | rfl | cases h

/-- Shape of one thread step of the sign-in race, for a thread whose
request carries email e and provider identity (pid, acct): the step is
quiet (all tracked quantities unchanged), or observes an existing user
(possible only when one exists), or performs the guarded user insert
(possible only when none exists, creating exactly one), or performs
the account insert (adding exactly one account for the identity). -/
theorem threadStep_shape (c : ThreadCfg) (now : Nat) (e pid acct : String)
    (hce : c.email = e) (hcp : c.providerId = pid) (hca : c.providerUserId = acct)
    (pc : TPhase) (s : Store) :
    (createdB (threadStep c now pc s).1 = createdB pc
      ∧ observedB (threadStep c now pc s).1 = observedB pc
      ∧ doneCreatedB (threadStep c now pc s).1 = doneCreatedB pc
      ∧ usersWithEmail (threadStep c now pc s).2 e = usersWithEmail s e
      ∧ accountsWithIdentity (threadStep c now pc s).2 pid acct
          = accountsWithIdentity s pid acct)
    ∨ (createdB pc = false ∧ createdB (threadStep c now pc s).1 = false
      ∧ observedB pc = false ∧ observedB (threadStep c now pc s).1 = true
      ∧ doneCreatedB pc = false ∧ doneCreatedB (threadStep c now pc s).1 = false
      ∧ (threadStep c now pc s).2 = s ∧ 1 ≤ usersWithEmail s e)
    ∨ (createdB pc = false ∧ createdB (threadStep c now pc s).1 = true
      ∧ observedB pc = false ∧ observedB (threadStep c now pc s).1 = false
      ∧ doneCreatedB pc = false ∧ doneCreatedB (threadStep c now pc s).1 = false
      ∧ usersWithEmail s e = 0 ∧ usersWithEmail (threadStep c now pc s).2 e = 1
      ∧ accountsWithIdentity (threadStep c now pc s).2 pid acct
          = accountsWithIdentity s pid acct)
    ∨ (createdB pc = true ∧ createdB (threadStep c now pc s).1 = true
      ∧ observedB pc = false ∧ observedB (threadStep c now pc s).1 = false
      ∧ doneCreatedB pc = false ∧ doneCreatedB (threadStep c now pc s).1 = true
      ∧ usersWithEmail (threadStep c now pc s).2 e = usersWithEmail s e
      ∧ accountsWithIdentity (threadStep c now pc s).2 pid acct
          = accountsWithIdentity s pid acct + 1) := by
  cases pc with
  | start =>
    cases hsel : (s.users.filter (fun u => u.email == c.email)).take 1 with
    | nil =>
      have hstep : threadStep c now .start s = (.insUser, s) := by
        simp [threadStep, hsel]
      left
      rw [hstep]
      exact ⟨rfl, rfl, rfl, rfl, rfl⟩
    | cons u rest =>
      have hstep : threadStep c now .start s = (.updUser u.id, s) := by
        simp [threadStep, hsel]
      have hpos : 1 ≤ usersWithEmail s e := by
        rw [hce] at hsel
        exact usersWithEmail_pos s e u rest hsel
      right; left
      rw [hstep]
      exact ⟨rfl, rfl, rfl, rfl, rfl, rfl, rfl, hpos⟩
  | insUser =>
    by_cases hany : s.users.any (fun u => u.email == c.email) = true
    · have hstep : threadStep c now .insUser s = (.failed, s) := by
        simp [threadStep, hany]
      have hpos : 1 ≤ usersWithEmail s e := by
        rw [List.any_eq_true] at hany
        obtain ⟨u, hu, hp⟩ := hany
        have hmem : u ∈ s.users.filter (fun x => x.email == e) :=
          List.mem_filter.2 ⟨hu, by rw [← hce]; exact hp⟩
        exact List.length_pos.2 (List.ne_nil_of_mem hmem)
      right; left
      rw [hstep]
      exact ⟨rfl, rfl, rfl, rfl, rfl, rfl, rfl, hpos⟩
    · have hany' : s.users.any (fun u => u.email == c.email) = false :=
        Bool.not_eq_true _ ▸ hany
      have hstep : threadStep c now .insUser s
          = (.insAccount, { s with users := s.users ++ [mkRaceUser c now] }) := by
        simp [threadStep, hany']
      have hzero : usersWithEmail s e = 0 := by
        apply usersWithEmail_zero
        rw [← hce]
        exact hany'
      have hone : usersWithEmail { s with users := s.users ++ [mkRaceUser c now] } e = 1 := by
        unfold usersWithEmail at hzero ⊢
        rw [filterLen_append]
        have hmail : ((mkRaceUser c now).email == e) = true := by
          simp [mkRaceUser, hce]
        rw [hzero, hmail]
        rfl
      right; right; left
      rw [hstep]
      exact ⟨rfl, rfl, rfl, rfl, rfl, rfl, hzero, hone, rfl⟩
  | insAccount =>
    have hstep : threadStep c now .insAccount s
        = (.doneCreated, { s with accounts := s.accounts ++ [mkRaceAccount c now] }) := rfl
    have hacc : accountsWithIdentity { s with accounts := s.accounts ++ [mkRaceAccount c now] }
        pid acct = accountsWithIdentity s pid acct + 1 := by
      unfold accountsWithIdentity
      rw [filterLen_append]
      have hid : (((mkRaceAccount c now).providerId == pid)
          && ((mkRaceAccount c now).accountId == acct)) = true := by
        simp [mkRaceAccount, hcp, hca]
      rw [hid]
      rfl
    right; right; right
    rw [hstep]
    exact ⟨rfl, rfl, rfl, rfl, rfl, rfl, rfl, hacc⟩
  | updUser uid =>
    have hstep : threadStep c now (.updUser uid) s
        = (.doneFetched,
           { s with users := s.users.map (updateUserRow c.name c.picture now uid) }) := rfl
    have husr : usersWithEmail
        { s with users := s.users.map (updateUserRow c.name c.picture now uid) } e
        = usersWithEmail s e := by
      unfold usersWithEmail
      exact filterLen_map s.users _ _ (fun a => by rw [updateUserRow_email])
    left
    rw [hstep]
    exact ⟨rfl, rfl, rfl, husr, rfl⟩
  | doneCreated =>
    left
    exact ⟨rfl, rfl, rfl, rfl, rfl⟩
  | doneFetched =>
    left
    exact ⟨rfl, rfl, rfl, rfl, rfl⟩
  | failed =>
    left
    exact ⟨rfl, rfl, rfl, rfl, rfl⟩

/-- Preservation of the race invariant by one step of either thread,
phrased for the stepping thread A against the passive thread B. -/
theorem raceInv_half (e pid acct : String) (pcA pcB pcA' : TPhase) (s s' : Store)
    (hshape :
      (createdB pcA' = createdB pcA ∧ observedB pcA' = observedB pcA
        ∧ doneCreatedB pcA' = doneCreatedB pcA
        ∧ usersWithEmail s' e = usersWithEmail s e
        ∧ accountsWithIdentity s' pid acct = accountsWithIdentity s pid acct)
      ∨ (createdB pcA = false ∧ createdB pcA' = false ∧ observedB pcA = false
        ∧ observedB pcA' = true ∧ doneCreatedB pcA = false ∧ doneCreatedB pcA' = false
        ∧ s' = s ∧ 1 ≤ usersWithEmail s e)
      ∨ (createdB pcA = false ∧ createdB pcA' = true ∧ observedB pcA = false
        ∧ observedB pcA' = false ∧ doneCreatedB pcA = false ∧ doneCreatedB pcA' = false
        ∧ usersWithEmail s e = 0 ∧ usersWithEmail s' e = 1
        ∧ accountsWithIdentity s' pid acct = accountsWithIdentity s pid acct)
      ∨ (createdB pcA = true ∧ createdB pcA' = true ∧ observedB pcA = false
        ∧ observedB pcA' = false ∧ doneCreatedB pcA = false ∧ doneCreatedB pcA' = true
        ∧ usersWithEmail s' e = usersWithEmail s e
        ∧ accountsWithIdentity s' pid acct = accountsWithIdentity s pid acct + 1))
    (h1 : usersWithEmail s e = (createdB pcA).toNat + (createdB pcB).toNat)
    (h2 : ¬(createdB pcA = true ∧ createdB pcB = true))
    (h3 : accountsWithIdentity s pid acct
        = (doneCreatedB pcA).toNat + (doneCreatedB pcB).toNat)
    (h4 : observedB pcA = true → createdB pcB = true)
    (h5 : observedB pcB = true → createdB pcA = true) :
    usersWithEmail s' e = (createdB pcA').toNat + (createdB pcB).toNat
    ∧ ¬(createdB pcA' = true ∧ createdB pcB = true)
    ∧ accountsWithIdentity s' pid acct
        = (doneCreatedB pcA').toNat + (doneCreatedB pcB).toNat
    ∧ (observedB pcA' = true → createdB pcB = true)
    ∧ (observedB pcB = true → createdB pcA' = true) := by
  rcases hshape with ⟨e1, e2, e3, e4, e5⟩ | ⟨e1, e2, e3, e4, e5, e6, e7, e8⟩
    | ⟨e1, e2, e3, e4, e5, e6, e7, e8, e9⟩ | ⟨e1, e2, e3, e4, e5, e6, e7, e8⟩
  · exact ⟨by rw [e4, e1]; exact h1, by rw [e1]; exact h2, by rw [e5, e3]; exact h3,
      by rw [e2]; exact h4, fun hob => by rw [e1]; exact h5 hob⟩
  · have hc2 : createdB pcB = true := by
      cases hx : createdB pcB with
      | false =>
        exfalso
        rw [e1, hx] at h1
        simp only [Bool.toNat_false, Nat.add_zero] at h1
        omega
      | true => rfl
    refine ⟨?_, ?_, ?_, ?_, ?_⟩
    · rw [e7, e2]
      rw [e1] at h1
      exact h1
    · rw [e2]
      simp
    · rw [e7, e6]
      rw [e5] at h3
      exact h3
    · intro _
      exact hc2
    · intro hob
      exact absurd (h5 hob) (by simp [e1])
  · have hc2 : createdB pcB = false := by
      cases hx : createdB pcB with
      | false => rfl
      | true =>
        exfalso
        rw [e1, hx, e7] at h1
        simp at h1
    refine ⟨?_, ?_, ?_, ?_, ?_⟩
    · rw [e8, e2, hc2]
      simp
    · simp [hc2]
    · rw [e9, e6]
      rw [e5] at h3
      exact h3
    · intro hob
      rw [e4] at hob
      cases hob
    · intro hob
      exact absurd (h5 hob) (by simp [e1])
  · have hc2 : createdB pcB = false := by
      cases hx : createdB pcB with
      | false => rfl
      | true => exact absurd ⟨e1, hx⟩ h2
    have hd2 : doneCreatedB pcB = false := by
      cases hx : doneCreatedB pcB with
      | false => rfl
      | true =>
        rw [createdB_of_doneCreatedB pcB hx] at hc2
        cases hc2
    refine ⟨?_, ?_, ?_, ?_, ?_⟩
    · rw [e7, e2]
      rw [e1] at h1
      exact h1
    · simp [hc2]
    · rw [e8, e6, hd2]
      rw [e5, hd2] at h3
      simp only [Bool.toNat_false, Bool.toNat_true, Nat.add_zero, Nat.zero_add] at h3 ⊢
      omega
    · intro hob
      rw [e4] at hob
      cases hob
    · intro _
      exact e2

/-- One scheduler step preserves the race invariant. -/
theorem raceInv_step (c1 c2 : ThreadCfg) (now1 now2 : Nat)
    (hem : c2.email = c1.email) (hpr : c2.providerId = c1.providerId)
    (hac : c2.providerUserId = c1.providerUserId)
    (b : Bool) (rs : RaceState)
    (hinv : RaceInv c1.email c1.providerId c1.providerUserId rs) :
    RaceInv c1.email c1.providerId c1.providerUserId (raceStep c1 c2 now1 now2 b rs) := by
  obtain ⟨h1, h2, h3, h4, h5⟩ := hinv
  cases b with
  | true =>
    exact raceInv_half c1.email c1.providerId c1.providerUserId rs.pc1 rs.pc2
      (threadStep c1 now1 rs.pc1 rs.store).1 rs.store (threadStep c1 now1 rs.pc1 rs.store).2
      (threadStep_shape c1 now1 c1.email c1.providerId c1.providerUserId rfl rfl rfl
        rs.pc1 rs.store) h1 h2 h3 h4 h5
  | false =>
    obtain ⟨g1, g2, g3, g4, g5⟩ := raceInv_half c1.email c1.providerId c1.providerUserId
      rs.pc2 rs.pc1 (threadStep c2 now2 rs.pc2 rs.store).1 rs.store
      (threadStep c2 now2 rs.pc2 rs.store).2
      (threadStep_shape c2 now2 c1.email c1.providerId c1.providerUserId hem hpr hac
        rs.pc2 rs.store)
      (by omega) (fun hx => h2 ⟨hx.2, hx.1⟩) (by omega) h5 h4
    have hA : usersWithEmail (threadStep c2 now2 rs.pc2 rs.store).2 c1.email
        = (createdB rs.pc1).toNat
          + (createdB (threadStep c2 now2 rs.pc2 rs.store).1).toNat := by omega
    have hB : ¬(createdB rs.pc1 = true
        ∧ createdB (threadStep c2 now2 rs.pc2 rs.store).1 = true) :=
      fun hx => g2 ⟨hx.2, hx.1⟩
    have hC : accountsWithIdentity (threadStep c2 now2 rs.pc2 rs.store).2
          c1.providerId c1.providerUserId
        = (doneCreatedB rs.pc1).toNat
          + (doneCreatedB (threadStep c2 now2 rs.pc2 rs.store).1).toNat := by omega
    exact ⟨hA, hB, hC, g5, g4⟩

/-- Every schedule preserves the race invariant. -/
theorem raceInv_run (c1 c2 : ThreadCfg) (now1 now2 : Nat)
    (hem : c2.email = c1.email) (hpr : c2.providerId = c1.providerId)
    (hac : c2.providerUserId = c1.providerUserId)
    (bs : List Bool) (rs : RaceState)
    (hinv : RaceInv c1.email c1.providerId c1.providerUserId rs) :
    RaceInv c1.email c1.providerId c1.providerUserId (raceRun c1 c2 now1 now2 bs rs) := by
  induction bs generalizing rs with
  | nil => exact hinv
  | cons b t ih =>
    exact ih (raceStep c1 c2 now1 now2 b rs)
      (raceInv_step c1 c2 now1 now2 hem hpr hac b rs hinv)

/-- A finished thread is in one of the three terminal phases. -/
theorem finishedB_cases (pc : TPhase) (hf : finishedB pc = true) :
    pc = .doneCreated ∨ pc = .doneFetched ∨ pc = .failed := by
  cases pc <;> first
    | exact Or.inl rfl
    | exact Or.inr (Or.inl rfl)
    | exact Or.inr (Or.inr rfl)
    | cases hf

/-- A finished thread that passed its user insert completed the create
path. -/
theorem finished_created_doneCreated (pc : TPhase) (hf : finishedB pc = true)
    (hc : createdB pc = true) : pc = .doneCreated := by
  cases pc with
  | start => cases hf
  | insUser => cases hf
  | insAccount => cases hf
  | updUser uid => cases hf
  | doneCreated => rfl
  | doneFetched => cases hc
  | failed => cases hc

/-- C9 amended: two sign-in requests for the same brand-new identity,
interleaved under any schedule of their storage steps, leave the store
with exactly one user row for the email and exactly one account row
for the provider identity once both requests have finished, because
the unique constraint on user.email aborts the losing insert; the
losing request, however, fails with an error instead of fetching the
existing user, since the code races a plain read-then-insert. -/
theorem resolve_race_single_row (c1 c2 : ThreadCfg) (now1 now2 : Nat) (st0 : Store)
    (bs : List Bool)
    (hem : c2.email = c1.email) (hpr : c2.providerId = c1.providerId)
    (hac : c2.providerUserId = c1.providerUserId)
    (h0u : usersWithEmail st0 c1.email = 0)
    (h0a : accountsWithIdentity st0 c1.providerId c1.providerUserId = 0)
    (hfin1 : finishedB (raceRun c1 c2 now1 now2 bs ⟨.start, .start, st0⟩).pc1 = true)
    (hfin2 : finishedB (raceRun c1 c2 now1 now2 bs ⟨.start, .start, st0⟩).pc2 = true) :
    usersWithEmail (raceRun c1 c2 now1 now2 bs ⟨.start, .start, st0⟩).store c1.email = 1
    ∧ accountsWithIdentity (raceRun c1 c2 now1 now2 bs ⟨.start, .start, st0⟩).store
        c1.providerId c1.providerUserId = 1 := by
  have hinv0 : RaceInv c1.email c1.providerId c1.providerUserId ⟨.start, .start, st0⟩ := by
    refine ⟨?_, ?_, ?_, ?_, ?_⟩
    · simpa using h0u
    · simp [createdB]
    · simpa using h0a
    · intro hob
      cases hob
    · intro hob
      cases hob
  obtain ⟨h1, h2, h3, h4, h5⟩ :=
    raceInv_run c1 c2 now1 now2 hem hpr hac bs ⟨.start, .start, st0⟩ hinv0
  rcases finishedB_cases _ hfin1 with hp1 | hp1 | hp1
  · have hc2 : createdB (raceRun c1 c2 now1 now2 bs ⟨.start, .start, st0⟩).pc2 = false := by
      cases hx : createdB (raceRun c1 c2 now1 now2 bs ⟨.start, .start, st0⟩).pc2 with
      | false => rfl
      | true => exact absurd ⟨by rw [hp1]; rfl, hx⟩ h2
    have hd2 : doneCreatedB (raceRun c1 c2 now1 now2 bs ⟨.start, .start, st0⟩).pc2
        = false := by
      cases hx : doneCreatedB (raceRun c1 c2 now1 now2 bs ⟨.start, .start, st0⟩).pc2 with
      | false => rfl
      | true =>
        rw [createdB_of_doneCreatedB _ hx] at hc2
        cases hc2
    rw [hp1, hc2] at h1
    rw [hp1, hd2] at h3
    simpa using And.intro h1 h3
  · have hc2 : createdB (raceRun c1 c2 now1 now2 bs ⟨.start, .start, st0⟩).pc2 = true :=
      h4 (by rw [hp1]; rfl)
    have hp2 := finished_created_doneCreated _ hfin2 hc2
    rw [hp1, hp2] at h1
    rw [hp1, hp2] at h3
    simpa using And.intro h1 h3
  · have hc2 : createdB (raceRun c1 c2 now1 now2 bs ⟨.start, .start, st0⟩).pc2 = true :=
      h4 (by rw [hp1]; rfl)
    have hp2 := finished_created_doneCreated _ hfin2 hc2
    rw [hp1, hp2] at h1
    rw [hp1, hp2] at h3
    simpa using And.intro h1 h3

/-- The two racing sign-in requests of the counterexample: same
brand-new email and same provider identity, distinct generated ids. -/
def raceCfg1 : ThreadCfg :=
  ⟨"user_A", "account_A", "apple123", "apple", "new@x.com", "Apple User", none, true⟩

/-- The second racing request. -/
def raceCfg2 : ThreadCfg :=
  ⟨"user_B", "account_B", "apple123", "apple", "new@x.com", "Apple User", none, true⟩

/-- Counterexample to C9 as stated: the create-or-fetch step is a plain
read-then-insert race, not an atomic operation.  Under the schedule in
which both requests run their select before either inserts, both
selects see no user; the first request then creates the user and
account, and the second request aborts on the unique-constraint
violation at its insert: it finishes failed, returning an error to its
caller instead of fetching the existing user as an atomic
create-or-fetch would. -/
theorem resolve_race_counterexample :
    (raceRun raceCfg1 raceCfg2 10 11 [true, false]
        ⟨.start, .start, ⟨[], [], []⟩⟩).pc1 = .insUser
    ∧ (raceRun raceCfg1 raceCfg2 10 11 [true, false]
        ⟨.start, .start, ⟨[], [], []⟩⟩).pc2 = .insUser
    ∧ (raceRun raceCfg1 raceCfg2 10 11 [true, false, true, true, false]
        ⟨.start, .start, ⟨[], [], []⟩⟩).pc1 = .doneCreated
    ∧ (raceRun raceCfg1 raceCfg2 10 11 [true, false, true, true, false]
        ⟨.start, .start, ⟨[], [], []⟩⟩).pc2 = .failed := by
  refine ⟨by decide, by decide, by decide, by decide⟩

/-- Witness for the amended C9 theorem on the concrete racing schedule:
after both requests finish, the store holds exactly one user and one
account row for the identity. -/
theorem resolve_race_single_row_witness :
    finishedB (raceRun raceCfg1 raceCfg2 10 11 [true, false, true, true, false]
        ⟨.start, .start, ⟨[], [], []⟩⟩).pc1 = true
    ∧ finishedB (raceRun raceCfg1 raceCfg2 10 11 [true, false, true, true, false]
        ⟨.start, .start, ⟨[], [], []⟩⟩).pc2 = true
    ∧ usersWithEmail (raceRun raceCfg1 raceCfg2 10 11 [true, false, true, true, false]
        ⟨.start, .start, ⟨[], [], []⟩⟩).store raceCfg1.email = 1
    ∧ accountsWithIdentity (raceRun raceCfg1 raceCfg2 10 11 [true, false, true, true, false]
        ⟨.start, .start, ⟨[], [], []⟩⟩).store raceCfg1.providerId raceCfg1.providerUserId
        = 1 := by
  have hmain := resolve_race_single_row raceCfg1 raceCfg2 10 11 ⟨[], [], []⟩
    [true, false, true, true, false] (by decide) (by decide) (by decide)
    (by decide) (by decide) (by decide) (by decide)
  exact ⟨by decide, by decide, hmain.1, hmain.2⟩
